import Mathlib

/-!
Verification of the remote-relay subsystem of rpi-can-monitor.

This file shallowly embeds the relay-related code of the repository:
the wire records built and consumed by src/core/can_server.py and
src/core/can_client.py, the command handling of
src/controllers/remote_controller.py, the broadcast / stop / start /
connect / send state transitions of both relay revisions, and the
message store of src/core/message_manager.py together with the string
parser of src/core/utils.py.

Modelling conventions:
- json.dumps / json.loads are the Python standard library; the repository
  code only ever builds a dict and extracts fields from a parsed dict, so
  wire records are embedded at the JSON-value level (JValue below).
- Socket and CAN-bus calls are external: their success or failure is a
  Bool parameter of the embedded function, and every call the code makes
  to the external interface is recorded in a returned trace.
- Machine integers do not overflow in any of the embedded paths, so ids
  and bytes are Int / Nat.
-/

/-- JSON values as built by json.dumps and returned by json.loads.
Numbers are restricted to integers, the only kind the relay code uses. -/
inductive JValue : Type
  | jnum (n : Int) : JValue
  | jstr (s : String) : JValue
  | jarr (elems : List JValue) : JValue
  | jobj (fields : List (String × JValue)) : JValue

/-- Dictionary lookup, the model of Python dict indexing / dict.get on the
record dictionaries the relay builds (which never repeat a key). -/
def jget (k : String) : List (String × JValue) → Option JValue
  | [] => none
  | (k2, v) :: rest => if k2 = k then some v else jget k rest

/-- Reads an integer out of a JSON value. -/
def asInt : JValue → Option Int
  | .jnum n => some n
  | _ => none

/-- Reads a list of integers out of a list of JSON values; none as soon as
one element is not an integer. -/
def asInts : List JValue → Option (List Int)
  | [] => some []
  | v :: vs =>
    match asInt v, asInts vs with
    | some n, some ns => some (n :: ns)
    | _, _ => none

/-- Reads a list of integers out of a JSON array value. -/
def asIntList : JValue → Option (List Int)
  | .jarr vs => asInts vs
  | _ => none

/-- Python truthiness of a JSON value, used by the if msg_data check in
RemoteServer.handle_command. -/
def pyTruthy : JValue → Bool
  | .jnum n => n != 0
  | .jstr s => s != ""
  | .jarr l => !l.isEmpty
  | .jobj l => !l.isEmpty

/-- Wire record built by CANServer.forward_can_messages
(src/core/can_server.py): json.dumps of a dict with keys type (value rx),
id (the arbitration id) and data (the list of data bytes). -/
def encodeEventJson (id : Int) (data : List Int) : JValue :=
  .jobj [("type", .jstr "rx"), ("id", .jnum id), ("data", .jarr (data.map .jnum))]

/-- Wire record built by CANClient.send_message (src/core/can_client.py):
json.dumps of a dict with keys type (value tx), id and data. -/
def encodeCommandJson (id : Int) (data : List Int) : JValue :=
  .jobj [("type", .jstr "tx"), ("id", .jnum id), ("data", .jarr (data.map .jnum))]

/-- Decoding done by CANClient.receive_messages (src/core/can_client.py)
and its consumers: the parsed dict is accepted when its type field equals
rx, and the event's id and data are read from the id and data keys.
A missing key or a non-integer id / non-integer-list data raises in the
Python code (KeyError / TypeError), modelled as none. -/
def clientDecodeRx (v : JValue) : Option (Int × List Int) :=
  match v with
  | .jobj kvs =>
    match jget "type" kvs with
    | some (.jstr s) =>
      if s = "rx" then
        match jget "id" kvs, jget "data" kvs with
        | some iv, some dv =>
          match asInt iv, asIntList dv with
          | some i, some d => some (i, d)
          | _, _ => none
        | _, _ => none
      else none
    | some _ => none
    | none => none
  | _ => none

/-- Outcome of CANServer.handle_client looking at one parsed record. -/
inductive ServerStep : Type
  | ignore : ServerStep
  | txCmd (id : Int) (data : List Int) : ServerStep
  | raised : ServerStep

/-- Classification a parsed record receives inside the read loop of
CANServer.handle_client (src/core/can_server.py): indexing message with
the key type raises on a non-dict or on a missing key (raised, which the
surrounding try/except turns into closing the connection); a type other
than tx is ignored; a tx record yields the raw id and data passed to
CANInterface.send_message, where a missing id/data key or values the CAN
message constructor cannot take also raise. -/
def canServerClassify (v : JValue) : ServerStep :=
  match v with
  | .jobj kvs =>
    match jget "type" kvs with
    | none => .raised
    | some (.jstr s) =>
      if s = "tx" then
        match jget "id" kvs, jget "data" kvs with
        | some iv, some dv =>
          match asInt iv, asIntList dv with
          | some i, some d => .txCmd i d
          | _, _ => .raised
        | _, _ => .raised
      else .ignore
    | some _ => .ignore
  | _ => .raised

/-- Command decoding as performed by the server side of the tx protocol:
a record classified as a tx command yields a SendFrame with the id and
data that CANServer.handle_client passes to the bus interface. -/
def serverDecodeTx (v : JValue) : Option (Int × List Int) :=
  match canServerClassify v with
  | .txCmd i d => some (i, d)
  | _ => none

/-- Read loop of CANServer.handle_client (src/core/can_server.py) over a
finite stream of received records; none stands for bytes json.loads
rejects. The try/except wraps the whole while loop, so the first raising
record ends the loop and the finally block closes the connection. Each
invocation of CANInterface.send_message is recorded as an (id, data) pair;
connected is the interface state and busSendOk tells whether the external
bus send returns normally. Result: (trace of adapter invocations, whether
the session was torn down by an exception rather than by end of stream). -/
def canServerHandleClient (connected busSendOk : Bool) :
    List (Option JValue) → List (Int × List Int) × Bool
  | [] => ([], false)
  | none :: _ => ([], true)
  | some v :: rest =>
    match canServerClassify v with
    | .raised => ([], true)
    | .ignore => canServerHandleClient connected busSendOk rest
    | .txCmd i d =>
      if connected then
        if busSendOk then
          let r := canServerHandleClient connected busSendOk rest
          ((i, d) :: r.1, r.2)
        else ([(i, d)], true)
      else ([(i, d)], true)

/-- Value of one digit under the given base, as accepted by Python int
with that base (2, 8, 10 or 16 in this development). -/
def digitVal (base : Nat) (c : Char) : Option Nat :=
  if '0' ≤ c ∧ c ≤ '9' ∧ c.toNat - 48 < base then some (c.toNat - 48)
  else if base = 16 ∧ 'a' ≤ c ∧ c ≤ 'f' then some (c.toNat - 87)
  else if base = 16 ∧ 'A' ≤ c ∧ c ≤ 'F' then some (c.toNat - 55)
  else none

/-- Accumulating digit parser. -/
def digitsValGo (base acc : Nat) : List Char → Option Nat
  | [] => some acc
  | c :: cs =>
    match digitVal base c with
    | some d => digitsValGo base (acc * base + d) cs
    | none => none

/-- Parses a non-empty run of digits in the given base (underscore digit
separators, which the relay and manager inputs never use, are not
modelled). -/
def digitsVal (base : Nat) (cs : List Char) : Option Nat :=
  match cs with
  | [] => none
  | _ => digitsValGo base 0 cs

/-- Python int(s) on an already-stripped token: optional sign followed by
decimal digits. -/
def pyIntDec (cs : List Char) : Option Int :=
  match cs with
  | '-' :: rest => (digitsVal 10 rest).map (fun n => -(n : Int))
  | '+' :: rest => (digitsVal 10 rest).map (fun n => (n : Int))
  | _ => (digitsVal 10 cs).map (fun n => (n : Int))

/-- parse_value from src/core/utils.py: if the lowercased string starts
with 0x it is parsed as int(value, 16), if with 0b as int(value, 2), and
otherwise as int(value); a parse failure (Python ValueError) is none. -/
def parse_value (s : String) : Option Int :=
  match s.toList with
  | '0' :: c :: rest =>
    if c = 'x' ∨ c = 'X' then (digitsVal 16 rest).map (fun n => (n : Int))
    else if c = 'b' ∨ c = 'B' then (digitsVal 2 rest).map (fun n => (n : Int))
    else pyIntDec ('0' :: c :: rest)
  | cs => pyIntDec cs

/-- Body of Python int(s, 0) after the sign: 0x / 0b / 0o prefixed values
in the matching base, otherwise decimal where a leading zero is only legal
when every character is zero. -/
def pyInt0Body : List Char → Option Int
  | '0' :: c :: rest =>
    if c = 'x' ∨ c = 'X' then (digitsVal 16 rest).map (fun n => (n : Int))
    else if c = 'b' ∨ c = 'B' then (digitsVal 2 rest).map (fun n => (n : Int))
    else if c = 'o' ∨ c = 'O' then (digitsVal 8 rest).map (fun n => (n : Int))
    else if ('0' :: c :: rest).all (fun d => d == '0') then some 0
    else none
  | cs => (digitsVal 10 cs).map (fun n => (n : Int))

/-- Python int(s, 0) as used by RemoteServer.handle_command
(src/controllers/remote_controller.py): optional sign, then a base chosen
by the prefix of the literal. -/
def pyInt0 (s : String) : Option Int :=
  match s.toList with
  | '-' :: rest => (pyInt0Body rest).map (fun n => -n)
  | '+' :: rest => pyInt0Body rest
  | cs => pyInt0Body cs

/-- Worker for pySplit: walks the characters keeping the (reversed)
current token. -/
def splitWsGo : List Char → List Char → List String
  | [], cur => if cur.isEmpty then [] else [⟨cur.reverse⟩]
  | c :: cs, cur =>
    if c.isWhitespace then
      if cur.isEmpty then splitWsGo cs [] else ⟨cur.reverse⟩ :: splitWsGo cs []
    else splitWsGo cs (c :: cur)

/-- Python str.split() with no argument: splits on runs of whitespace and
never yields empty tokens. -/
def pySplit (s : String) : List String := splitWsGo s.toList []

/-- Parses every token of a send_message command with int(token, 0), as
the list comprehension in RemoteServer.handle_command does; none as soon
as one token fails. -/
def parseTokens : List String → Option (List Int)
  | [] => some []
  | t :: ts =>
    match pyInt0 t, parseTokens ts with
    | some v, some vs => some (v :: vs)
    | _, _ => none

/-- One parsed record as processed by RemoteServer.handle_client /
handle_command (src/controllers/remote_controller.py). Only a record
whose cmd field equals send_message and whose data field is a truthy dict
with string id and data fields that parse leads to an invocation of
CANInterface.send_message (ok (some (id, bytes))); every exception inside
the send_message branch is caught and logged, so all other well-formed
dicts are dropped (ok none); a parsed record that is not a dict raises
AttributeError outside any inner try and breaks the read loop (error). -/
def remoteServerStep (v : JValue) : Except Unit (Option (Int × List Int)) :=
  match v with
  | .jobj kvs =>
    match jget "cmd" kvs with
    | some (.jstr c) =>
      if c = "send_message" then
        match jget "data" kvs with
        | some md =>
          if pyTruthy md then
            match md with
            | .jobj dkvs =>
              match jget "id" dkvs, jget "data" dkvs with
              | some (.jstr ids), some (.jstr ds) =>
                match pyInt0 ids, parseTokens (pySplit ds) with
                | some i, some bytes => .ok (some (i, bytes))
                | _, _ => .ok none
              | _, _ => .ok none
            | _ => .ok none
          else .ok none
        | none => .ok none
      else .ok none
    | _ => .ok none
  | _ => .error ()

/-- Read loop of RemoteServer.handle_client over a finite stream of
received records; none stands for bytes json.loads rejects, which this
revision catches inside the loop (logged and skipped). Result: (trace of
CANInterface.send_message invocations, whether the loop was broken by an
uncaught exception). -/
def remoteServerHandleClient : List (Option JValue) → List (Int × List Int) × Bool
  | [] => ([], false)
  | none :: rest => remoteServerHandleClient rest
  | some v :: rest =>
    match remoteServerStep v with
    | .error _ => ([], true)
    | .ok none => remoteServerHandleClient rest
    | .ok (some c) =>
      let r := remoteServerHandleClient rest
      (c :: r.1, r.2)

/-- A connected client socket as seen by CANServer.broadcast: an identity
and whether its send call succeeds during this pass. -/
structure RClient where
  cid : Nat
  sendOk : Bool
deriving DecidableEq

/-- Python list.remove: deletes the first element equal to the argument
(client sockets are pairwise distinct objects). -/
def pyListRemove (l : List RClient) (c : RClient) : List RClient :=
  match l with
  | [] => []
  | x :: xs => if x = c then xs else x :: pyListRemove xs c

/-- The for loop of CANServer.broadcast (src/core/can_server.py) with
Python list-iterator semantics: the iterator keeps an index into the live
list, so self.clients.remove(client) executed inside the loop shifts the
remaining elements one slot left under the iterator. fuel bounds the
number of iterations (the index grows by one per step while the list
never grows, so list length + 1 steps always suffice). Accumulates the
ids of the clients whose send succeeded. -/
def broadcastLoop (fuel : Nat) (l : List RClient) (i : Nat) (delivered : List Nat) :
    List RClient × List Nat :=
  match fuel with
  | 0 => (l, delivered)
  | f + 1 =>
    if h : i < l.length then
      let c := l.get ⟨i, h⟩
      if c.sendOk then broadcastLoop f l (i + 1) (delivered ++ [c.cid])
      else broadcastLoop f (pyListRemove l c) (i + 1) delivered
    else (l, delivered)

/-- CANServer.broadcast applied to the current client list: final client
list and the ids that actually received the event. -/
def canServerBroadcast (clients : List RClient) : List RClient × List Nat :=
  broadcastLoop (clients.length + 1) clients 0 []

/-- Observable state of a CANServer (src/core/can_server.py): the running
flag, the listening socket (none before start; some b with b false once
closed) and the connected client sockets. -/
structure SrvState where
  running : Bool
  serverSocket : Option Bool
  clients : List Nat
deriving DecidableEq

/-- CANServer.stop: sets running to False, closes the listening socket if
one exists (closing an already-closed Python socket is a no-op and does
not raise), closes every client socket and clears the client list. No
statement in the body can raise, so the model is a total function. -/
def canServerStop (s : SrvState) : SrvState :=
  { running := false
    serverSocket := s.serverSocket.map (fun _ => false)
    clients := [] }

/-- Observable state reached by CANServer.start in src/core/remote_manager.py. -/
structure RMStart where
  running : Bool
  bound : Bool
  busConnected : Bool
  monitoring : Bool
  accepting : Bool
deriving DecidableEq

/-- CANServer.start from src/core/remote_manager.py: sets running to True
first, then binds and listens (a bind failure raises out of start, left
as error carrying the state at that point); then tries
can_interface.connect, and only when it returns True starts receiving and
the monitor_can thread, a failure being only logged; in both cases the
method then runs the accept loop. bindOk / busOk are the outcomes of the
two external calls. -/
def remoteManagerStart (bindOk busOk : Bool) : Except RMStart RMStart :=
  let s0 : RMStart := ⟨true, false, false, false, false⟩
  if bindOk then
    let s1 : RMStart := { s0 with bound := true }
    let s2 : RMStart :=
      if busOk then { s1 with busConnected := true, monitoring := true } else s1
    .ok { s2 with accepting := true }
  else .error s0

/-- Observable state of a relay client (CANClient of src/core/can_client.py
or RemoteClient of src/controllers/remote_controller.py): the running
flag, whether a socket object was created, and whether the read loop is
executing. -/
structure CliState where
  running : Bool
  socketCreated : Bool
  readLoop : Bool
deriving DecidableEq

/-- A freshly constructed CANClient: not running, no socket, no read loop. -/
def canClientInit : CliState := ⟨false, false, false⟩

/-- CANClient.connect (src/core/can_client.py): creates the socket and
connects; on success sets running, starts the receive thread and returns
True; a connection failure is caught, logged and False is returned with
running untouched and no thread started. connectOk is the outcome of the
external TCP connect. -/
def canClientConnect (st : CliState) (connectOk : Bool) : Bool × CliState :=
  if connectOk then (true, ⟨true, true, true⟩)
  else (false, { st with socketCreated := true })

/-- RemoteClient.run (src/controllers/remote_controller.py), the QThread
body started by RemoteClient.start: sets self.running = True, then
creates and connects the socket; a connection failure is caught and only
logged inside the thread, after which run returns with running still
True and no read loop ever entered. -/
def remoteClientRun (connectOk : Bool) : CliState :=
  if connectOk then ⟨true, true, true⟩
  else ⟨true, true, false⟩

/-- CANClient.send_message (src/core/can_client.py): when not running it
logs and returns; otherwise it serializes and calls socket.send, and an
exception from the send is caught and logged. No branch assigns any
state field. Returns the state after the call and whether the bytes were
handed to a successful send (sendOk is the outcome of the external send). -/
def canClientSendMessage (st : CliState) (id : Int) (data : List Int) (sendOk : Bool) :
    CliState × Bool :=
  if st.running then
    if sendOk then (st, true) else (st, false)
  else (st, false)

/-- RemoteClient.send_command (src/controllers/remote_controller.py):
when a socket exists it serializes and calls sendall, catching and
logging any exception; no branch assigns any state field. -/
def remoteClientSendCommand (st : CliState) (sendOk : Bool) : CliState × Bool :=
  if st.socketCreated then
    if sendOk then (st, true) else (st, false)
  else (st, false)

/-- A stored message of MessageManager (src/core/message_manager.py):
the dict with name, id and data keys. -/
structure CanMessage where
  name : String
  id : Int
  data : List Int
deriving DecidableEq

/-- Parses every token of the data string with parse_value, as the list
comprehension in MessageManager.add_message does; none as soon as one
token fails (Python ValueError). -/
def parseValueTokens : List String → Option (List Int)
  | [] => some []
  | t :: ts =>
    match parse_value t, parseValueTokens ts with
    | some v, some vs => some (v :: vs)
    | _, _ => none

/-- The duplicate-detection loop of MessageManager.add_message: scans the
stored messages and reports True at the first one with the same name or
with the same id and data. -/
def hasConflict (msgs : List CanMessage) (name : String) (pid : Int)
    (pdata : List Int) : Bool :=
  match msgs with
  | [] => false
  | m :: rest =>
    if m.name = name then true
    else if m.id = pid ∧ m.data = pdata then true
    else hasConflict rest name pid pdata

/-- MessageManager.add_message: parses the id and the data tokens (a
parse failure returns False with the list untouched), rejects an id
outside 0..0x7FF, data longer than 8 bytes, and duplicates; otherwise
appends the new message and returns True. -/
def addMessage (msgs : List CanMessage) (name mid mdata : String) :
    Bool × List CanMessage :=
  match parse_value mid, parseValueTokens (pySplit mdata) with
  | some pid, some pdata =>
    if pid < 0 ∨ 0x7FF < pid then (false, msgs)
    else if 8 < pdata.length then (false, msgs)
    else if hasConflict msgs name pid pdata then (false, msgs)
    else (true, msgs ++ [⟨name, pid, pdata⟩])
  | _, _ => (false, msgs)

/-- MessageManager.remove_message: removes the first stored message whose
name matches and returns True, or returns False leaving the list as it
was. -/
def removeMessage (msgs : List CanMessage) (name : String) :
    Bool × List CanMessage :=
  match msgs with
  | [] => (false, [])
  | m :: rest =>
    if m.name = name then (true, rest)
    else
      let r := removeMessage rest name
      (r.1, m :: r.2)

/-- One call in a MessageManager usage history: add_message,
remove_message or clear_messages. -/
inductive MMOp : Type
  | add (name mid mdata : String) : MMOp
  | remove (name : String) : MMOp
  | clear : MMOp

/-- Effect of one call on the stored message list (clear_messages empties
the list). -/
def applyOp (msgs : List CanMessage) : MMOp → List CanMessage
  | .add n i d => (addMessage msgs n i d).2
  | .remove n => (removeMessage msgs n).2
  | .clear => []

/-- Stored message list after a history of calls on a fresh MessageManager. -/
def runOps (ops : List MMOp) : List CanMessage := ops.foldl applyOp []

/-- The storage invariant of MessageManager: every stored message has an
id in 0..0x7FF and at most 8 data bytes, and stored names are pairwise
distinct. -/
def MMInv (msgs : List CanMessage) : Prop :=
  (∀ m ∈ msgs, 0 ≤ m.id ∧ m.id ≤ 0x7FF ∧ m.data.length ≤ 8) ∧
  (msgs.map (fun m => m.name)).Nodup

/-! Helper lemmas. -/

theorem asInts_map_jnum (l : List Int) : asInts (l.map JValue.jnum) = some l := by
  induction l with
  | nil => rfl
  | cons x xs ih => simp [asInts, asInt, ih]

theorem classify_encodeCommand (id : Int) (data : List Int) :
    canServerClassify (encodeCommandJson id data) = .txCmd id data := by
  simp [canServerClassify, encodeCommandJson, jget, asInt, asIntList, asInts_map_jnum]

/-- Claim C1: for every valid frame (id an unsigned integer at most
0x1FFFFFFF, data a sequence of 0 to 8 bytes), decoding the wire record
produced by encoding the frame as a frame event yields an event with
exactly the same id and the same data bytes in the same order. -/
theorem frame_event_roundtrip (id : Int) (data : List Int)
    (hid0 : 0 ≤ id) (hid : id ≤ 0x1FFFFFFF)
    (hlen : data.length ≤ 8) (hbytes : ∀ b ∈ data, 0 ≤ b ∧ b < 256) :
    clientDecodeRx (encodeEventJson id data) = some (id, data) := by
  simp [clientDecodeRx, encodeEventJson, jget, asInt, asIntList, asInts_map_jnum]

/-- Witness for frame_event_roundtrip: the round trip evaluated at a
29-bit id with the maximal 8 data bytes and at the empty-data frame. -/
theorem frame_event_roundtrip_witness :
    clientDecodeRx (encodeEventJson 0x1FFFFFFF [10, 20, 30, 40, 50, 60, 70, 80]) =
      some (0x1FFFFFFF, [10, 20, 30, 40, 50, 60, 70, 80]) ∧
    clientDecodeRx (encodeEventJson 0 []) = some (0, []) :=
  ⟨frame_event_roundtrip 0x1FFFFFFF [10, 20, 30, 40, 50, 60, 70, 80]
      (by decide) (by decide) (by decide) (by decide),
    frame_event_roundtrip 0 [] (by decide) (by decide) (by decide) (by decide)⟩

/-- Claim C3: for every command with id in 0..0x1FFFFFFF and 0 to 8 data
bytes, decoding the wire record produced by encoding it as a send command
yields a SendFrame command with identical id and data. -/
theorem send_command_roundtrip (id : Int) (data : List Int)
    (hid0 : 0 ≤ id) (hid : id ≤ 0x1FFFFFFF)
    (hlen : data.length ≤ 8) (hbytes : ∀ b ∈ data, 0 ≤ b ∧ b < 256) :
    serverDecodeTx (encodeCommandJson id data) = some (id, data) := by
  simp [serverDecodeTx, classify_encodeCommand]

/-- Witness for send_command_roundtrip at the extreme 29-bit id with 8
bytes and at an empty-data command. -/
theorem send_command_roundtrip_witness :
    serverDecodeTx (encodeCommandJson 0x1FFFFFFF [1, 2, 3, 4, 5, 6, 7, 8]) =
      some (0x1FFFFFFF, [1, 2, 3, 4, 5, 6, 7, 8]) ∧
    serverDecodeTx (encodeCommandJson 0x7FF []) = some (0x7FF, []) :=
  ⟨send_command_roundtrip 0x1FFFFFFF [1, 2, 3, 4, 5, 6, 7, 8]
      (by decide) (by decide) (by decide) (by decide),
    send_command_roundtrip 0x7FF [] (by decide) (by decide) (by decide) (by decide)⟩

/-- Claim C2: against the claim that broadcast iterates a snapshot and
only removes failing sessions after the pass, CANServer.broadcast removes
the failing client from self.clients during the iteration, which shifts
the list under the live iterator: with clients 0 (send fails), 1 and 2
(both healthy), client 1 receives nothing in this pass although it stays
in the client set, and client 0 is removed mid-pass. -/
theorem broadcast_skips_live_client :
    canServerBroadcast [⟨0, false⟩, ⟨1, true⟩, ⟨2, true⟩] =
      ([⟨1, true⟩, ⟨2, true⟩], [2]) ∧
    1 ∉ (canServerBroadcast [⟨0, false⟩, ⟨1, true⟩, ⟨2, true⟩]).2 := by
  constructor
  · decide
  · decide

/-- Counterexample to claim C4: in CANServer.handle_client a single
undecodable record tears the session down (the try/except is outside the
read loop), so the valid tx command following it is never applied and the
connection does not remain usable. -/
theorem canserver_malformed_record_fatal_cex :
    canServerHandleClient true true
      [none, some (encodeCommandJson 0x123 [1, 2])] = ([], true) := by
  decide

/-- Claim C4 (amended): RemoteServer.handle_client logs and skips a
malformed record and keeps the connection usable for the valid command
that follows, while CANServer.handle_client closes the session at the
first undecodable record and drops the subsequent valid command. -/
theorem malformed_record_handling :
    remoteServerHandleClient
      [none, some (.jobj [("cmd", .jstr "send_message"),
        ("data", .jobj [("id", .jstr "0x123"), ("data", .jstr "0x01 0x02")])])] =
      ([(0x123, [1, 2])], false) ∧
    canServerHandleClient true true
      [none, some (encodeCommandJson 0x123 [1, 2])] = ([], true) := by
  constructor
  · decide
  · decide

/-- Counterexample to claim C5: the server performs no validation before
calling the Bus Adapter: a SendFrame with id 0x20000000 (out of the
supported id range) is passed straight to CANInterface.send_message, the
adapter is invoked with the raw values, and the exception the send path
raises closes the originating session. -/
theorem send_validation_missing_cex :
    canServerHandleClient true false [some (encodeCommandJson 0x20000000 [1, 2])] =
      ([(0x20000000, [1, 2])], true) := by
  decide

/-- Claim C5 (amended): CANServer.handle_client performs no id or length
validation of its own: every decoded tx command causes exactly one
invocation of CANInterface.send_message with the unmodified id and data,
whatever their values; rejection can only come from the external CAN
layer, and when that send path raises, the exception closes the session. -/
theorem server_forwards_raw_command (id : Int) (data : List Int) (busSendOk : Bool) :
    canServerHandleClient true busSendOk [some (encodeCommandJson id data)] =
      ([(id, data)], !busSendOk) := by
  cases busSendOk <;> simp [canServerHandleClient, classify_encodeCommand]

/-- Claim C6: calling stop twice in succession on a started CANServer
(running, listening socket open) reaches the same observable end state as
calling it once: running is false, the client set is empty and the
listening socket is closed; no statement of the second call can raise. -/
theorem stop_idempotent (s : SrvState) (hrun : s.running = true)
    (hsock : s.serverSocket = some true) :
    canServerStop (canServerStop s) = canServerStop s ∧
    (canServerStop s).running = false ∧
    (canServerStop s).clients = [] ∧
    (canServerStop s).serverSocket = some false := by
  refine ⟨?_, rfl, rfl, ?_⟩
  · simp [canServerStop, Option.map_map]
  · simp [canServerStop, hsock]

/-- Witness for stop_idempotent: a started server with an open listening
socket and two connected clients. -/
theorem stop_idempotent_witness :
    canServerStop (canServerStop ⟨true, some true, [7, 8]⟩) =
        canServerStop ⟨true, some true, [7, 8]⟩ ∧
    (canServerStop ⟨true, some true, [7, 8]⟩).running = false ∧
    (canServerStop ⟨true, some true, [7, 8]⟩).clients = [] ∧
    (canServerStop ⟨true, some true, [7, 8]⟩).serverSocket = some false :=
  stop_idempotent ⟨true, some true, [7, 8]⟩ rfl rfl

/-- Counterexample to claim C7: in CANServer.start of
src/core/remote_manager.py a successful bind followed by a failing
can_interface.connect does not fail start: the method proceeds to the
accept loop (accepting is true) with no connected bus and no monitor
thread, the partially-started server the claim rules out. -/
theorem bus_connect_failure_not_fatal_cex :
    remoteManagerStart true false = .ok ⟨true, true, false, false, true⟩ := rfl

/-- Claim C7 (amended): a bind failure raises out of start (fail fast,
though self.running has already been set to True); a failed Bus Adapter
connect is only logged and start proceeds to run the accept loop, serving
clients with no working bus. -/
theorem remote_manager_start_behavior (bindOk busOk : Bool) :
    remoteManagerStart bindOk busOk =
      if bindOk then .ok ⟨true, true, busOk, busOk, true⟩
      else .error ⟨true, false, false, false, false⟩ := by
  cases bindOk <;> cases busOk <;> rfl

/-- Counterexample to claim C8: RemoteClient (the QThread relay client of
src/controllers/remote_controller.py) sets running to True before
attempting the connection, and a failed connect is only logged inside the
thread: after the failure running is still true, not false as the claim
requires. -/
theorem remote_client_failed_connect_running_cex :
    (remoteClientRun false).running = true := rfl

/-- Claim C8 (amended): CANClient.connect on a fresh client whose TCP
connect fails returns False synchronously and leaves the client
disconnected (running false, no read loop started, no retry); the
QThread-based RemoteClient instead attempts the connection inside run,
leaves running true after the failure, and never enters the read loop,
reporting the failure only through a log from the client thread. -/
theorem connect_failure_behavior :
    canClientConnect canClientInit false = (false, ⟨false, true, false⟩) ∧
    remoteClientRun false = ⟨true, true, false⟩ := ⟨rfl, rfl⟩

/-- Counterexample to claim C9: a running CANClient whose socket.send
raises stays running after send_message returns: the write failure is
logged and swallowed, the client is not marked disconnected. -/
theorem send_failure_keeps_running_cex :
    (canClientSendMessage ⟨true, true, true⟩ 0x123 [1] false).1.running = true := rfl

/-- Claim C9 (amended): a write failure in CANClient.send_message or in
RemoteClient.send_command is logged and the command dropped; neither
method changes any state field, so the client is not marked disconnected
by a failed write (disconnection happens only through the receive loop or
an explicit disconnect call). -/
theorem send_failure_state_unchanged (st : CliState) (id : Int) (data : List Int)
    (sendOk : Bool) :
    (canClientSendMessage st id data sendOk).1 = st ∧
    (remoteClientSendCommand st sendOk).1 = st := by
  constructor
  · unfold canClientSendMessage
    split_ifs <;> rfl
  · unfold remoteClientSendCommand
    split_ifs <;> rfl

theorem hasConflict_false_name {msgs : List CanMessage} {name : String} {pid : Int}
    {pdata : List Int} (h : hasConflict msgs name pid pdata = false) :
    ∀ m ∈ msgs, m.name ≠ name := by
  induction msgs with
  | nil => intro m hm; cases hm
  | cons x xs ih =>
    intro m hm
    unfold hasConflict at h
    split_ifs at h with h1 h2
    rcases List.mem_cons.mp hm with rfl | hmem
    · exact h1
    · exact ih h m hmem

theorem removeMessage_sublist (msgs : List CanMessage) (name : String) :
    List.Sublist (removeMessage msgs name).2 msgs := by
  induction msgs with
  | nil => simp [removeMessage]
  | cons m rest ih =>
    unfold removeMessage
    split_ifs with h
    · exact (List.Sublist.refl rest).cons m
    · exact List.Sublist.cons₂ m ih

theorem mminv_nil : MMInv [] := by
  constructor
  · intro m hm; cases hm
  · simp

theorem addMessage_inv {msgs : List CanMessage} (hinv : MMInv msgs)
    (name mid mdata : String) : MMInv (addMessage msgs name mid mdata).2 := by
  unfold addMessage
  cases hp : parse_value mid with
  | none => exact hinv
  | some pid =>
    cases hq : parseValueTokens (pySplit mdata) with
    | none => exact hinv
    | some pdata =>
      simp only []
      split_ifs with h1 h2 h3
      · exact hinv
      · exact hinv
      · exact hinv
      · push_neg at h1 h2
        have hfresh : ∀ m ∈ msgs, m.name ≠ name :=
          hasConflict_false_name (Bool.eq_false_iff.mpr h3)
        constructor
        · intro m hm
          rcases List.mem_append.mp hm with hmem | hnew
          · exact hinv.1 m hmem
          · have : m = ⟨name, pid, pdata⟩ := by simpa using hnew
            subst this
            exact ⟨h1.1, h1.2, h2⟩
        · rw [List.map_append]
          refine List.Nodup.append hinv.2 (by simp) ?_
          intro a ha hb
          simp at hb
          subst hb
          rcases List.mem_map.mp ha with ⟨m, hmem, hname⟩
          exact hfresh m hmem hname

theorem removeMessage_inv {msgs : List CanMessage} (hinv : MMInv msgs)
    (name : String) : MMInv (removeMessage msgs name).2 := by
  have hs := removeMessage_sublist msgs name
  constructor
  · intro m hm
    exact hinv.1 m (hs.mem hm)
  · exact hinv.2.sublist (hs.map (fun m => m.name))

theorem applyOp_inv {msgs : List CanMessage} (hinv : MMInv msgs) (op : MMOp) :
    MMInv (applyOp msgs op) := by
  cases op with
  | add n i d => exact addMessage_inv hinv n i d
  | remove n => exact removeMessage_inv hinv n
  | clear => exact mminv_nil

theorem foldl_applyOp_inv (ops : List MMOp) (msgs : List CanMessage)
    (hinv : MMInv msgs) : MMInv (ops.foldl applyOp msgs) := by
  induction ops generalizing msgs with
  | nil => exact hinv
  | cons op rest ih => exact ih _ (applyOp_inv hinv op)

theorem addMessage_false {msgs : List CanMessage} {name mid mdata : String}
    (h : (addMessage msgs name mid mdata).1 = false) :
    (addMessage msgs name mid mdata).2 = msgs := by
  unfold addMessage at h ⊢
  cases hp : parse_value mid with
  | none => rfl
  | some pid =>
    cases hq : parseValueTokens (pySplit mdata) with
    | none => rfl
    | some pdata =>
      rw [hp, hq] at h
      simp only [] at h ⊢
      split_ifs at h ⊢ <;> rfl

/-- Claim C10: after any sequence of add_message, remove_message and
clear_messages calls on a fresh MessageManager, every stored message has
an id in 0..0x7FF, at most 8 data bytes, and a name distinct from every
other stored message's name; and whenever add_message returns False the
stored message list is exactly as it was before the call. -/
theorem message_manager_invariant :
    (∀ ops : List MMOp, MMInv (runOps ops)) ∧
    ∀ (msgs : List CanMessage) (name mid mdata : String),
      (addMessage msgs name mid mdata).1 = false →
      (addMessage msgs name mid mdata).2 = msgs := by
  constructor
  · intro ops
    exact foldl_applyOp_inv ops [] mminv_nil
  · intro msgs name mid mdata h
    exact addMessage_false h

/-- Witness for message_manager_invariant: a concrete history of calls,
and a rejected add_message (id 0x900 is out of the 11-bit range) on a
concrete store that leaves the store untouched. -/
theorem message_manager_invariant_witness :
    MMInv (runOps [MMOp.add "m1" "0x123" "0x01 0x02", MMOp.add "m2" "0b101" "7",
      MMOp.remove "m1", MMOp.clear, MMOp.add "m3" "42" ""]) ∧
    ((addMessage [⟨"m1", 0x123, [1, 2]⟩] "m2" "0x900" "1").1 = false ∧
      (addMessage [⟨"m1", 0x123, [1, 2]⟩] "m2" "0x900" "1").2 = [⟨"m1", 0x123, [1, 2]⟩]) :=
  ⟨message_manager_invariant.1 _,
    by decide,
    message_manager_invariant.2 [⟨"m1", 0x123, [1, 2]⟩] "m2" "0x900" "1" (by decide)⟩
